import Mathlib

/-!
Verification development for the zmachine-api repository.

The repository exposes a REST API for playing interactive fiction, with three
interchangeable backends: a hand-written scripted stub engine (`ZMachineAPI`
in server.js), an in-process interpreter wrapper (`ZMachineSession`), and a
subprocess wrapper around an external interpreter (`DFrotzSession`).  This
file shallowly embeds the session registry, the HTTP handler logic and the
three adapters as pure Lean functions, and proves the frozen claims about
them.  JavaScript `Map`s are modelled as association lists, mutation as
explicit state passing, the filesystem as a finite lookup table, and the
nondeterministic bytes read from the subprocess as an explicit argument.
-/

set_option maxRecDepth 16384

namespace ZM

/-! ## Command tokenization

`ZMachineAPI.processCommand` begins with
`cmd.toLowerCase().trim().split(/\s+/)`.  We model JavaScript strings as
Lean strings and reproduce each step on the underlying character list:
`\s` run splitting, `trim`, `toLowerCase`.  JavaScript `split(/\s+/)`
returns `[""]` on the empty string, which the `jsWords` wrapper preserves. -/

def isWs (c : Char) : Bool := c == ' ' || c == '\t' || c == '\n' || c == '\r'

def jsToLower (cs : List Char) : List Char := cs.map Char.toLower

def ltrim (cs : List Char) : List Char := cs.dropWhile isWs

def rtrim (cs : List Char) : List Char := (cs.reverse.dropWhile isWs).reverse

def jsTrim (cs : List Char) : List Char := rtrim (ltrim cs)

def splitRunsAux : List Char → List Char → List (List Char)
  | [], acc => if acc = [] then [] else [acc.reverse]
  | c :: cs, acc =>
    if isWs c then
      if acc = [] then splitRunsAux cs [] else acc.reverse :: splitRunsAux cs []
    else
      splitRunsAux cs (c :: acc)

def splitRuns (cs : List Char) : List (List Char) := splitRunsAux cs []

def jsWords (cmd : String) : List String :=
  let t := jsTrim (jsToLower cmd.data)
  if t = [] then [""] else (splitRuns t).map String.mk

def lowerStr (s : String) : String := String.mk (jsToLower s.data)

/-! ## The scripted stub engine (`class ZMachineAPI`, server.js)

Fields mirror the constructor; each method returns the produced transcript
together with the updated object state. -/

structure ZMachineAPI where
  storyFile : String
  outputBuffer : String
  inputBuffer : String
  gameStarted : Bool
  gameEnded : Bool
  location : String
  inventory : List String
  openedMailbox : Bool
deriving DecidableEq, Repr

def ZMachineAPI.init (storyFile : String) : ZMachineAPI :=
  { storyFile := storyFile
    outputBuffer := ""
    inputBuffer := ""
    gameStarted := false
    gameEnded := false
    location := "field"
    inventory := []
    openedMailbox := false }

def welcomeMessage : String :=
  "ZORK I: The Great Underground Empire\nInfocom interactive fiction - a fantasy story\nCopyright (c) 1981, 1982, 1983, 1984, 1985, 1986 Infocom, Inc. All Rights Reserved.\nZORK is a registered trademark of Infocom, Inc.\n\nRelease 119 / Serial number 880429\n\nWest of House\nYou are standing in an open field west of a white house, with a boarded front door.\nThere is a small mailbox here.\n\n>"

def ZMachineAPI.start (st : ZMachineAPI) : String × ZMachineAPI :=
  (welcomeMessage, { st with gameStarted := true })

def ZMachineAPI.doLook (st : ZMachineAPI) : String × ZMachineAPI :=
  if st.location = "field" then
    let base := "West of House\nYou are standing in an open field west of a white house, with a boarded front door.\nThere is a small mailbox here."
    let msg :=
      if st.inventory.length > 0 then
        base ++ "\n\nYou are carrying:\n  " ++ String.intercalate "\n  " st.inventory
      else base
    (msg ++ "\n>", st)
  else if st.location = "porch" then
    ("Front Porch\nYou are on the porch of the white house. The front door is to the east.\nThe windows are boarded up. A path leads west back to the field.\n\n>", st)
  else
    ("Unknown location.\n>", st)

def ZMachineAPI.doGo (st : ZMachineAPI) (direction : String) : String × ZMachineAPI :=
  let dir := lowerStr direction
  if st.location = "field" then
    if dir = "east" ∨ dir = "e" then
      ("You go around to the front of the house and climb the porch.\n>", { st with location := "porch" })
    else if dir = "north" ∨ dir = "south" ∨ dir = "west" ∨ dir = "w" then
      ("You would only find more fields that way.\n>", st)
    else
      ("You can't go that way.\n>", st)
  else if st.location = "porch" then
    if dir = "west" ∨ dir = "w" ∨ dir = "back" then
      ("You go back to the open field.\n>", { st with location := "field" })
    else if dir = "east" ∨ dir = "e" ∨ dir = "enter" ∨ dir = "in" then
      ("The door is locked. You need to find another way in.\n>", st)
    else
      ("You can't go that way.\n>", st)
  else
    ("You can't go that way.\n>", st)

def ZMachineAPI.doOpen (st : ZMachineAPI) (thing : String) : String × ZMachineAPI :=
  if thing = "mailbox" ∨ thing = "box" then
    ("You open the mailbox. Inside, you see a brochure.\n>", { st with openedMailbox := true })
  else if thing = "door" then
    ("It's locked. You need a key or another way in.\n>", st)
  else if thing = "window" then
    ("The windows are boarded up. You can't open them.\n>", st)
  else
    ("You can't open that.\n>", st)

def ZMachineAPI.doTake (st : ZMachineAPI) (thing : String) : String × ZMachineAPI :=
  if st.location ≠ "field" then
    ("You don't see that here.\n>", st)
  else if thing = "knife" ∨ thing = "rusty knife" ∨ thing = "rusty" then
    if st.inventory.contains "rusty knife" then
      ("You already have that.\n>", st)
    else
      ("Taken.\n>", { st with inventory := st.inventory ++ ["rusty knife"] })
  else if thing = "brochure" ∨ thing = "paper" ∨ thing = "mail" then
    if ¬ st.openedMailbox then
      ("You don't see that here. Maybe you should open the mailbox first?\n>", st)
    else if st.inventory.contains "brochure" then
      ("You already have that.\n>", st)
    else
      ("Taken.\n>", { st with inventory := st.inventory ++ ["brochure"] })
  else if thing = "mailbox" then
    ("That's fixed in place.\n>", st)
  else
    ("You don't see that here.\n>", st)

def ZMachineAPI.doDrop (st : ZMachineAPI) (thing : String) : String × ZMachineAPI :=
  if thing = "knife" ∨ thing = "rusty knife" ∨ thing = "rusty" then
    if st.inventory.contains "rusty knife" then
      ("Dropped.\n>", { st with inventory := st.inventory.erase "rusty knife" })
    else
      ("You don't have that.\n>", st)
  else
    ("You don't have that.\n>", st)

def ZMachineAPI.doInventory (st : ZMachineAPI) : String × ZMachineAPI :=
  if st.inventory.length = 0 then
    ("You are not carrying anything.\n>", st)
  else
    ("You are carrying:\n  " ++ String.intercalate "\n  " st.inventory ++ "\n>", st)

def ZMachineAPI.doExamine (st : ZMachineAPI) (thing : String) : String × ZMachineAPI :=
  if thing = "mailbox" ∨ thing = "box" then
    ("It's a small US mailbox, painted blue. There's a small slot in it." ++
      (if st.openedMailbox then " It's open." else "") ++ "\n>", st)
  else if thing = "knife" ∨ thing = "rusty knife" ∨ thing = "rusty" then
    (if st.inventory.contains "rusty knife" then
      "It's a rusty knife. The blade is pitted from years of exposure. You could take it if you want.\n>"
     else
      "A rusty knife is stuck in the ground here. The blade is pitted from years of exposure.\n>", st)
  else if thing = "door" ∧ st.location = "porch" then
    ("The front door is locked. It's a heavy wooden door with iron reinforcements.\n>", st)
  else if thing = "brochure" ∨ thing = "paper" then
    ("A brochure for the \"Great Underground Empire\". It mentions something about a thief and treasures...\n>", st)
  else if thing = "house" ∧ st.location = "field" then
    ("The house is a three-story Georgian-style house, painted white. The front door is boarded up.\n>", st)
  else
    ("You see nothing special about that.\n>", st)

def ZMachineAPI.doRead (st : ZMachineAPI) (thing : String) : String × ZMachineAPI :=
  if thing = "brochure" ∨ thing = "paper" then
    if st.inventory.contains "brochure" then
      ("\"WELCOME TO THE GREAT UNDERGROUND EMPIRE!\nA world of excitement, adventure, and danger awaits you.\nDiscover the treasures of Zork!\n\nNote: The Front Door is locked. Try the West of House...\n", st)
    else
      ("You don't have anything to read.\n>", st)
  else if thing = "mailbox" then
    ("The mailbox is too dirty to read.\n>", st)
  else
    ("You can't read that.\n>", st)

def ZMachineAPI.doScore (st : ZMachineAPI) : String × ZMachineAPI :=
  ("Your score is " ++ toString (st.inventory.length * 10) ++ ".\n>", st)

def ZMachineAPI.doWait (st : ZMachineAPI) : String × ZMachineAPI :=
  ("Time passes...\n>", st)

def ZMachineAPI.doRestart (st : ZMachineAPI) : String × ZMachineAPI :=
  ZMachineAPI.start
    { st with location := "field", inventory := [], openedMailbox := false, gameStarted := false }

def ZMachineAPI.doHelp (st : ZMachineAPI) : String × ZMachineAPI :=
  ("Available commands:\n  look / l              - Look around\n  go [direction]        - Move (north/south/east/west/up/down)\n  open [thing]          - Open something\n  take [thing]          - Pick something up\n  drop [thing]          - Drop something\n  inventory / i         - Check what you're carrying\n  examine / x [thing]   - Look at something closely\n  read [thing]          - Read something\n  score                 - Check your score\n  wait                  - Wait for a while\n  restart               - Start the game over\n  help                  - Show this message\n  quit / q              - Quit the game\n>", st)

def ZMachineAPI.doQuit (st : ZMachineAPI) : String × ZMachineAPI :=
  ("Would you like to quit? (Y)es or (N)o: >", { st with gameEnded := true })

def ZMachineAPI.processCommand (st : ZMachineAPI) (cmd : String) : String × ZMachineAPI :=
  match jsWords cmd with
  | [] => (">", st)
  | verb :: rest =>
    let noun := String.intercalate " " rest
    if verb = "look" ∨ verb = "l" then st.doLook
    else if verb = "go" ∨ verb = "walk" ∨ verb = "move" then st.doGo noun
    else if verb ∈ ["north", "n", "south", "s", "east", "e", "west", "w", "up", "u", "down", "d"] then
      st.doGo verb
    else if verb = "open" ∨ verb = "unlock" then st.doOpen noun
    else if verb = "take" ∨ verb = "get" ∨ verb = "grab" ∨ verb = "pick" then st.doTake noun
    else if verb = "drop" then st.doDrop noun
    else if verb = "inventory" ∨ verb = "i" ∨ verb = "inv" then st.doInventory
    else if verb = "examine" ∨ verb = "x" ∨ (verb = "look" ∧ noun ≠ "") then st.doExamine noun
    else if verb = "read" then st.doRead noun
    else if verb = "help" then st.doHelp
    else if verb = "quit" ∨ verb = "q" then st.doQuit
    else if verb = "score" then st.doScore
    else if verb = "wait" then st.doWait
    else if verb = "restart" then st.doRestart
    else ("I don't understand that command. Type 'help' for a list of commands.\n>", st)

def ZMachineAPI.run (st : ZMachineAPI) : String × ZMachineAPI :=
  if ¬ st.gameStarted then
    (welcomeMessage, { st with gameStarted := true })
  else if st.inputBuffer ≠ "" then
    let r := st.processCommand st.inputBuffer
    (r.1, { r.2 with outputBuffer := r.1, inputBuffer := "" })
  else
    (st.outputBuffer, st)

def ZMachineAPI.input (st : ZMachineAPI) (command : String) : String × ZMachineAPI :=
  ZMachineAPI.run { st with inputBuffer := command }

/-! ## Filesystem, game loading and the session registry (server.js)

`fs.existsSync`/`fs.readFileSync` are modelled by a finite path-to-contents
table, `path.resolve` by an arbitrary resolver function (it depends on the
process working directory), `crypto.randomUUID` and `new Date()` by explicit
arguments, and the `sessions` `Map` by an association list whose `set`
replaces an existing key in place and otherwise appends. -/

structure FileSys where
  files : List (String × String)
deriving DecidableEq

def FileSys.existsSync (fs : FileSys) (p : String) : Bool :=
  (fs.files.lookup p).isSome

def FileSys.readFileSync (fs : FileSys) (p : String) : String :=
  (fs.files.lookup p).getD ""

def loadGame (fs : FileSys) (resolve : String → String) (gamePath : String) :
    Except String (String × String) :=
  let fullPath := resolve gamePath
  if fs.existsSync fullPath then .ok (fs.readFileSync fullPath, fullPath)
  else .error ("Game file not found: " ++ fullPath)

structure SessionEntry where
  zmachine : ZMachineAPI
  gamePath : String
  createdAt : String
deriving DecidableEq, Repr

abbrev Registry := List (String × SessionEntry)

def Registry.set (reg : Registry) (sid : String) (e : SessionEntry) : Registry :=
  if (reg.lookup sid).isSome then
    reg.map (fun p => if p.1 = sid then (sid, e) else p)
  else
    reg ++ [(sid, e)]

def Registry.eraseKey (reg : Registry) (sid : String) : Registry :=
  reg.filter (fun p => !(p.1 == sid))

/-- JavaScript `gamePath || DEFAULT_GAME`: an absent or empty string falls
back to the default. -/
def jsOrDefault (s : Option String) (d : String) : String :=
  match s with
  | none => d
  | some p => if p = "" then d else p

inductive CreateResult where
  | ok (sessionId output gamePath : String)
  | badRequest (error : String)
deriving DecidableEq, Repr

/-- The `POST /api/sessions` handler of server.js: resolve the game path,
load it, start a fresh stub engine, store the session, answer with the
start transcript; on load failure answer 400 and store nothing. -/
def createSession (fs : FileSys) (resolve : String → String) (defaultGame : String)
    (reg : Registry) (sessionId : String) (gamePath : Option String) (now : String) :
    Registry × CreateResult :=
  let actualPath := jsOrDefault gamePath defaultGame
  match loadGame fs resolve actualPath with
  | .error e => (reg, .badRequest e)
  | .ok (storyFile, fullPath) =>
    let r := (ZMachineAPI.init storyFile).start
    (reg.set sessionId { zmachine := r.2, gamePath := fullPath, createdAt := now },
     .ok sessionId r.1 fullPath)

inductive InputResult where
  | ok (sessionId command output : String)
  | notFound (error : String)
deriving DecidableEq, Repr

/-- The `POST /api/sessions/:sessionId/input` handler of server.js. -/
def inputHandler (reg : Registry) (sid : String) (command : String) :
    Registry × InputResult :=
  match reg.lookup sid with
  | none => (reg, .notFound "Session not found")
  | some e =>
    let r := e.zmachine.input command
    (reg.set sid { e with zmachine := r.2 }, .ok sid command r.1)

inductive OutputResult where
  | ok (sessionId output : String)
  | notFound (error : String)
deriving DecidableEq, Repr

/-- The `GET /api/sessions/:sessionId/output` handler of server.js:
`session.zmachine.outputBuffer || ''` (the `|| ''` maps the empty string to
itself). -/
def getOutputHandler (reg : Registry) (sid : String) : OutputResult :=
  match reg.lookup sid with
  | none => .notFound "Session not found"
  | some e =>
    .ok sid (if e.zmachine.outputBuffer = "" then "" else e.zmachine.outputBuffer)

inductive DeleteResult where
  | ok (success : Bool) (message : String)
  | notFound (error : String)
deriving DecidableEq, Repr

/-- The `DELETE /api/sessions/:sessionId` handler of server.js. -/
def deleteSessionHandler (reg : Registry) (sid : String) : Registry × DeleteResult :=
  if (reg.lookup sid).isSome then
    (reg.eraseKey sid, .ok true "Session deleted")
  else
    (reg, .notFound "Session not found")

/-! ## The game catalog (`GET /api/games`) -/

structure GameEntry where
  name : String
  path : String
deriving DecidableEq, Repr

def jsEndsWith (s suffixStr : String) : Bool := suffixStr.data.isSuffixOf s.data

def hasGameExt (file : String) : Bool :=
  jsEndsWith file ".z1" || jsEndsWith file ".z2" || jsEndsWith file ".z3" ||
  jsEndsWith file ".z4" || jsEndsWith file ".z5" || jsEndsWith file ".z6" ||
  jsEndsWith file ".z7" || jsEndsWith file ".z8" || jsEndsWith file ".zip"

def listGames (files : List String) : List GameEntry :=
  (files.filter hasGameExt).map (fun f => { name := f, path := "/games/" ++ f })

/-! ## The in-process adapter (`class ZMachineSession`, ebozz variant)

The interesting, repository-owned logic of `sendCommand` is the transcript
buffer handling: `this.screen.output = ''` before the interpreter loop is
resumed, and `APIScreen.print` appending to `this.screen.output` while it
runs.  The interpreter itself (ebozz) is third-party code, so it is
abstracted as an arbitrary step function `exec` from the current game state
and the injected command line to the text printed during this resumption and
the next game state; the theorems quantify over it. -/

structure ZMachineSession (σ : Type) where
  screenOutput : String
  gameState : σ
  started : Bool
  executing : Bool

def ZMachineSession.sendCommand {σ : Type} (exec : σ → String → String × σ)
    (s : ZMachineSession σ) (command : String) : String × ZMachineSession σ :=
  let s1 := { s with screenOutput := "" }
  if s1.executing then
    (s1.screenOutput, s1)
  else
    let r := exec s1.gameState command
    let s2 := { s1 with screenOutput := s1.screenOutput ++ r.1, gameState := r.2 }
    (s2.screenOutput, s2)

/-! ## The subprocess adapter (`class DFrotzSession`, dfrotz variant)

The spawned process is modelled by its `killed` flag together with the bytes
written so far into its standard input pipe; the bytes collected from its
standard output during the fixed 0.1-second window are an explicit argument
(they are produced by the external process and are nondeterministic). -/

structure DFrotzProc where
  killed : Bool
  stdinData : String
deriving DecidableEq, Repr

structure DFrotzSession where
  gamePath : String
  proc : Option DFrotzProc
  outputBuffer : String
  ready : Bool
deriving DecidableEq, Repr

def DFrotzSession.mkNew (gamePath : String) : DFrotzSession :=
  { gamePath := gamePath, proc := none, outputBuffer := "", ready := false }

/-- JavaScript `output.replace(/^[^\n]*\n/, '')`: drop everything up to and
including the first newline; if the string has no newline the pattern does
not match and the string is returned unchanged. -/
def stripFirstLine (s : String) : String :=
  match s.data.dropWhile (fun c => !(c == '\n')) with
  | [] => s
  | _ :: rest => String.mk rest

def DFrotzSession.sendCommand (s : DFrotzSession) (command : String)
    (collected : String) : Except String (String × DFrotzSession) :=
  match s.proc with
  | none => .error "Process not running"
  | some p =>
    if p.killed then .error "Process not running"
    else
      let fullCommand := command ++ "\n"
      let p1 := { p with stdinData := p.stdinData ++ fullCommand }
      let output := stripFirstLine collected
      .ok (output, { s with proc := some p1, outputBuffer := output })

def DFrotzSession.cleanup (s : DFrotzSession) : DFrotzSession :=
  { s with proc := none }

/-! ## Helpers used by the theorems -/

/-- Whether `pat` occurs as a contiguous substring of the character list. -/
def strContainsAux (pat : List Char) : List Char → Bool
  | [] => pat.isEmpty
  | c :: t => pat.isPrefixOf (c :: t) || strContainsAux pat t

/-- Whether `pat` occurs as a contiguous substring of `hay`. -/
def strContains (hay pat : String) : Bool := strContainsAux pat.data hay.data

/-- Reading of the spec phrase "each transcript is disjoint from the
previous": the two strings share no nonempty contiguous substring. -/
def transcriptsDisjoint (s t : String) : Prop :=
  ∀ u : String, u ≠ "" → strContains s u = true → strContains t u = false

/-- The stub-variant scenario of the spec, step by step: a fresh session is
created (`start`), then "open mailbox", "take brochure" and "inventory" are
submitted through `ZMachineAPI.input`. -/
def scenStart : String × ZMachineAPI := (ZMachineAPI.init "").start

def scenOpen : String × ZMachineAPI := scenStart.2.input "open mailbox"

def scenTake : String × ZMachineAPI := scenOpen.2.input "take brochure"

def scenInv : String × ZMachineAPI := scenTake.2.input "inventory"

/-! ## Claim C3 -/

/-- Claim C3 as stated is false at its own scenario: after "open mailbox",
submitting "take brochure" to the stub engine returns the transcript
"Taken." followed by a newline and the prompt character, which is not equal
to the string "Taken." demanded by the claim. -/
theorem claim_C3_counterexample :
    scenTake.1 = "Taken.\n>" ∧ scenTake.1 ≠ "Taken." := by
  decide

/-- Claim C3 (amended): in the stub-variant scenario started from a fresh
session (location "field", empty inventory, mailbox closed), the start
transcript contains "West of House"; submitting "open mailbox" returns
output containing "you see a brochure"; submitting "take brochure" returns
exactly "Taken." followed by a newline and the prompt; submitting
"inventory" then returns output listing "brochure". -/
theorem claim_C3 :
    (ZMachineAPI.init "").location = "field"
    ∧ (ZMachineAPI.init "").inventory = []
    ∧ (ZMachineAPI.init "").openedMailbox = false
    ∧ strContains scenStart.1 "West of House" = true
    ∧ strContains scenOpen.1 "you see a brochure" = true
    ∧ scenTake.1 = "Taken.\n>"
    ∧ strContains scenInv.1 "brochure" = true
    ∧ scenInv.2.inventory = ["brochure"] := by
  decide

/-! ## Claim C1 -/

theorem doLook_fst (st : ZMachineAPI) (buf ib : String) :
    (({ st with outputBuffer := buf, inputBuffer := ib }).doLook).1 = (st.doLook).1 := by
  unfold ZMachineAPI.doLook
  dsimp only
  split_ifs <;> rfl

theorem doGo_fst (st : ZMachineAPI) (buf ib noun : String) :
    (({ st with outputBuffer := buf, inputBuffer := ib }).doGo noun).1 = (st.doGo noun).1 := by
  unfold ZMachineAPI.doGo
  dsimp only
  split_ifs <;> rfl

theorem doOpen_fst (st : ZMachineAPI) (buf ib noun : String) :
    (({ st with outputBuffer := buf, inputBuffer := ib }).doOpen noun).1 = (st.doOpen noun).1 := by
  unfold ZMachineAPI.doOpen
  dsimp only
  split_ifs <;> rfl

theorem doTake_fst (st : ZMachineAPI) (buf ib noun : String) :
    (({ st with outputBuffer := buf, inputBuffer := ib }).doTake noun).1 = (st.doTake noun).1 := by
  unfold ZMachineAPI.doTake
  dsimp only
  split_ifs <;> rfl

theorem doDrop_fst (st : ZMachineAPI) (buf ib noun : String) :
    (({ st with outputBuffer := buf, inputBuffer := ib }).doDrop noun).1 = (st.doDrop noun).1 := by
  unfold ZMachineAPI.doDrop
  dsimp only
  split_ifs <;> rfl

theorem doInventory_fst (st : ZMachineAPI) (buf ib : String) :
    (({ st with outputBuffer := buf, inputBuffer := ib }).doInventory).1 = (st.doInventory).1 := by
  unfold ZMachineAPI.doInventory
  dsimp only
  split_ifs <;> rfl

theorem doExamine_fst (st : ZMachineAPI) (buf ib noun : String) :
    (({ st with outputBuffer := buf, inputBuffer := ib }).doExamine noun).1
      = (st.doExamine noun).1 := by
  unfold ZMachineAPI.doExamine
  dsimp only
  split_ifs <;> rfl

theorem doRead_fst (st : ZMachineAPI) (buf ib noun : String) :
    (({ st with outputBuffer := buf, inputBuffer := ib }).doRead noun).1 = (st.doRead noun).1 := by
  unfold ZMachineAPI.doRead
  dsimp only
  split_ifs <;> rfl

/-- The stub dispatcher reads the world state (location, inventory, mailbox
flag) but never the two I/O buffers: overwriting them does not change the
produced transcript. -/
theorem processCommand_buffers_irrelevant (st : ZMachineAPI) (buf ib cmd : String) :
    (({ st with outputBuffer := buf, inputBuffer := ib }).processCommand cmd).1
      = (st.processCommand cmd).1 := by
  unfold ZMachineAPI.processCommand
  cases h : jsWords cmd with
  | nil => rfl
  | cons verb rest =>
    dsimp only
    simp only [apply_ite (@Prod.fst String ZMachineAPI)]
    simp only [doLook_fst, doGo_fst, doOpen_fst, doTake_fst, doDrop_fst, doInventory_fst,
      doExamine_fst, doRead_fst]
    rfl

def c1Look : String × ZMachineAPI := scenStart.2.input "look"

def c1L : String × ZMachineAPI := c1Look.2.input "l"

/-- Claim C1 as stated is false: submitting "look" and then the different
command "l" to a started stub session returns the same nonempty transcript
twice, so the two transcripts are not disjoint (each is a nonempty substring
of the other). -/
theorem claim_C1_counterexample :
    "look" ≠ "l" ∧ c1Look.1 = c1L.1 ∧ c1Look.1 ≠ ""
    ∧ ¬ transcriptsDisjoint c1Look.1 c1L.1 := by
  refine ⟨by decide, by decide, by decide, fun h => ?_⟩
  have h2 := h c1Look.1 (by decide) (by decide)
  have h3 : strContains c1L.1 c1Look.1 = true := by decide
  rw [h3] at h2
  exact Bool.noConfusion h2

/-- Claim C1 (amended): transcripts are turn-scoped rather than pairwise
disjoint.  For the stub variant, a `submit` of a nonempty command on a
started session returns exactly the output `processCommand` freshly produces
for that command in the current world state — the previous turn's stored
`outputBuffer` does not influence it.  For the in-process variant,
`sendCommand` resets the screen buffer to empty before resuming the
interpreter, so its result is independent of whatever output an earlier turn
left in the buffer. -/
theorem claim_C1 (st : ZMachineAPI) (buf cmd : String)
    (hstarted : st.gameStarted = true) (hcmd : cmd ≠ "") :
    (({ st with outputBuffer := buf }).input cmd).1 = (st.processCommand cmd).1
    ∧ ∀ (σ : Type) (exec : σ → String → String × σ) (s : ZMachineSession σ) (prior : String),
        ZMachineSession.sendCommand exec { s with screenOutput := prior } cmd
          = ZMachineSession.sendCommand exec s cmd := by
  refine ⟨?_, fun σ exec s prior => rfl⟩
  show (ZMachineAPI.run { st with outputBuffer := buf, inputBuffer := cmd }).1
    = (st.processCommand cmd).1
  unfold ZMachineAPI.run
  dsimp only
  rw [if_neg (by simp [hstarted])]
  rw [if_pos hcmd]
  exact processCommand_buffers_irrelevant st buf cmd cmd

/-- Witness for claim C1 at a concrete input: a started session with stale
output "OLD" in its buffer, submitting "wait". -/
theorem claim_C1_witness :
    ((({ (ZMachineAPI.init "") with gameStarted := true, outputBuffer := "OLD" }).input
      "wait").1 = (({ (ZMachineAPI.init "") with gameStarted := true }).processCommand
        "wait").1)
    ∧ ∀ (σ : Type) (exec : σ → String → String × σ) (s : ZMachineSession σ) (prior : String),
        ZMachineSession.sendCommand exec { s with screenOutput := prior } "wait"
          = ZMachineSession.sendCommand exec s "wait" :=
  claim_C1 { (ZMachineAPI.init "") with gameStarted := true } "OLD" "wait" rfl (by decide)

/-! ## Registry lemmas -/

theorem lookup_cons_self (k : String) (v : SessionEntry) (t : Registry) :
    (((k, v) :: t).lookup k) = some v := by
  simp [List.lookup]

theorem lookup_cons_of_ne (k sid : String) (v : SessionEntry) (t : Registry)
    (h : sid ≠ k) : (((k, v) :: t).lookup sid) = t.lookup sid := by
  simp [List.lookup, beq_eq_false_iff_ne.mpr h]

theorem lookup_map_replace (t : Registry) (sid : String) (e : SessionEntry)
    (h : (t.lookup sid).isSome = true) :
    ((t.map fun p => if p.1 = sid then (sid, e) else p).lookup sid) = some e := by
  induction t with
  | nil => simp [List.lookup] at h
  | cons p t ih =>
    obtain ⟨k, v⟩ := p
    by_cases hk : k = sid
    · cases hk
      rw [List.map_cons]
      rw [show (if ((sid, v) : String × SessionEntry).1 = sid then (sid, e) else (sid, v))
          = (sid, e) from by simp]
      exact lookup_cons_self sid e _
    · have hsk : sid ≠ k := fun hh => hk hh.symm
      rw [lookup_cons_of_ne k sid v t hsk] at h
      rw [List.map_cons]
      rw [show (if ((k, v) : String × SessionEntry).1 = sid then (sid, e) else (k, v))
          = (k, v) from by simp [hk]]
      rw [lookup_cons_of_ne k sid v _ hsk]
      exact ih h

theorem lookup_append_single (t : Registry) (sid : String) (e : SessionEntry)
    (h : (t.lookup sid).isSome = false) :
    ((t ++ [(sid, e)]).lookup sid) = some e := by
  induction t with
  | nil => simp [List.lookup]
  | cons p t ih =>
    obtain ⟨k, v⟩ := p
    by_cases hk : sid = k
    · cases hk
      rw [lookup_cons_self] at h
      simp at h
    · rw [List.cons_append, lookup_cons_of_ne k sid v _ hk]
      rw [lookup_cons_of_ne k sid v t hk] at h
      exact ih h

/-- `Map.set` followed by `Map.get` returns the stored entry. -/
theorem lookup_set (reg : Registry) (sid : String) (e : SessionEntry) :
    ((Registry.set reg sid e).lookup sid) = some e := by
  unfold Registry.set
  split_ifs with h
  · exact lookup_map_replace reg sid e h
  · exact lookup_append_single reg sid e (by simp only [Bool.not_eq_true] at h; exact h)

/-- `Map.delete` removes the entry for the key. -/
theorem lookup_eraseKey (reg : Registry) (sid : String) :
    ((Registry.eraseKey reg sid).lookup sid) = none := by
  unfold Registry.eraseKey
  induction reg with
  | nil => rfl
  | cons p t ih =>
    obtain ⟨k, v⟩ := p
    by_cases hk : k = sid
    · cases hk
      rw [List.filter_cons]
      rw [show (!(((sid, v) : String × SessionEntry).1 == sid)) = false from by simp]
      rw [if_neg (by simp)]
      exact ih
    · have hsk : sid ≠ k := fun hh => hk hh.symm
      rw [List.filter_cons]
      rw [show (!(((k, v) : String × SessionEntry).1 == sid)) = true from by simp [hk]]
      rw [if_pos rfl]
      rw [lookup_cons_of_ne k sid v _ hsk]
      exact ih

theorem if_empty_id (s : String) : (if s = "" then "" else s) = s := by
  split_ifs with h
  · exact h.symm
  · rfl

/-! ## Claim C2 -/

def demoFS : FileSys := ⟨[("zork1.zip", "STORY")]⟩

def c2Created : Registry × CreateResult :=
  createSession demoFS id "zork1.zip" [] "sid-1" none "2025-01-01"

/-- Claim C2 as stated is false immediately after session creation: the
start call returns the welcome transcript but never writes the stub engine's
`outputBuffer`, so the polling read returns the empty string instead of the
start transcript. -/
theorem claim_C2_counterexample :
    c2Created.2 = .ok "sid-1" welcomeMessage "zork1.zip"
    ∧ getOutputHandler c2Created.1 "sid-1" = .ok "sid-1" ""
    ∧ welcomeMessage ≠ "" := by
  decide

/-- After a successful `input` on a started engine, the stored
`outputBuffer` is exactly the returned transcript. -/
theorem input_outputBuffer (zm : ZMachineAPI) (cmd : String)
    (hstarted : zm.gameStarted = true) (hcmd : cmd ≠ "") :
    (zm.input cmd).2.outputBuffer = (zm.input cmd).1 := by
  show (ZMachineAPI.run { zm with inputBuffer := cmd }).2.outputBuffer
    = (ZMachineAPI.run { zm with inputBuffer := cmd }).1
  unfold ZMachineAPI.run
  dsimp only
  rw [if_neg (by simp [hstarted])]
  rw [if_pos hcmd]

/-- Claim C2 (amended): for a live stub session, after any submit of a
nonempty command the polling endpoint `GET /api/sessions/:id/output` returns
exactly that submit's result, and keeps doing so until another command is
submitted (the read itself never mutates the registry).  Immediately after
`createSession`, however, the stored buffer is the empty string, not the
start transcript, so the polling read returns `""` there. -/
theorem claim_C2 (reg : Registry) (sid cmd : String) (e : SessionEntry)
    (hlook : reg.lookup sid = some e)
    (hstarted : e.zmachine.gameStarted = true) (hcmd : cmd ≠ "") :
    (inputHandler reg sid cmd).2 = .ok sid cmd (e.zmachine.input cmd).1
    ∧ getOutputHandler (inputHandler reg sid cmd).1 sid
        = .ok sid (e.zmachine.input cmd).1
    ∧ ∀ (fs : FileSys) (resolve : String → String) (dflt : String) (reg0 : Registry)
        (sid0 : String) (gp : Option String) (now out full : String),
        (createSession fs resolve dflt reg0 sid0 gp now).2 = .ok sid0 out full →
        getOutputHandler (createSession fs resolve dflt reg0 sid0 gp now).1 sid0
          = .ok sid0 "" := by
  refine ⟨?_, ?_, ?_⟩
  · unfold inputHandler
    rw [hlook]
  · unfold inputHandler
    rw [hlook]
    dsimp only
    unfold getOutputHandler
    rw [lookup_set]
    dsimp only
    rw [input_outputBuffer e.zmachine cmd hstarted hcmd]
    rw [if_empty_id]
  · intro fs resolve dflt reg0 sid0 gp now out full hok
    unfold createSession at hok ⊢
    dsimp only at hok ⊢
    cases hl : loadGame fs resolve (jsOrDefault gp dflt) with
    | error msg =>
      rw [hl] at hok
      exact absurd hok (by simp)
    | ok pr =>
      obtain ⟨story, fullp⟩ := pr
      dsimp only
      unfold getOutputHandler
      rw [lookup_set]
      rfl

def demoEntry : SessionEntry :=
  { zmachine := { ZMachineAPI.init "" with gameStarted := true }
    gamePath := "g", createdAt := "t" }

/-- Witness for claim C2 at a concrete registry holding one started
session. -/
theorem claim_C2_witness :
    (inputHandler [("s", demoEntry)] "s" "look").2
        = .ok "s" "look" (demoEntry.zmachine.input "look").1
    ∧ getOutputHandler (inputHandler [("s", demoEntry)] "s" "look").1 "s"
        = .ok "s" (demoEntry.zmachine.input "look").1
    ∧ ∀ (fs : FileSys) (resolve : String → String) (dflt : String) (reg0 : Registry)
        (sid0 : String) (gp : Option String) (now out full : String),
        (createSession fs resolve dflt reg0 sid0 gp now).2 = .ok sid0 out full →
        getOutputHandler (createSession fs resolve dflt reg0 sid0 gp now).1 sid0
          = .ok sid0 "" :=
  claim_C2 [("s", demoEntry)] "s" "look" demoEntry (by decide) rfl (by decide)

/-! ## Claim C4 -/

/-- Claim C4: session creation is atomic in the load.  When the resolved
game path names no existing file, the handler answers 400 with the load
error and the session map is left exactly as it was (in particular no entry
for the fresh id); on success the started session is stored under the fresh
id and the caller receives the id, the start transcript and the resolved
path. -/
theorem claim_C4 (fs : FileSys) (resolve : String → String) (defaultGame : String)
    (reg : Registry) (sid : String) (gp : Option String) (now : String) :
    (fs.existsSync (resolve (jsOrDefault gp defaultGame)) = false →
      createSession fs resolve defaultGame reg sid gp now
        = (reg, .badRequest
            ("Game file not found: " ++ resolve (jsOrDefault gp defaultGame))))
    ∧ (fs.existsSync (resolve (jsOrDefault gp defaultGame)) = true →
      createSession fs resolve defaultGame reg sid gp now
        = (Registry.set reg sid
            { zmachine :=
                { ZMachineAPI.init (fs.readFileSync (resolve (jsOrDefault gp defaultGame)))
                    with gameStarted := true }
              gamePath := resolve (jsOrDefault gp defaultGame)
              createdAt := now },
           .ok sid welcomeMessage (resolve (jsOrDefault gp defaultGame)))) := by
  constructor
  · intro h
    have hl : loadGame fs resolve (jsOrDefault gp defaultGame)
        = .error ("Game file not found: " ++ resolve (jsOrDefault gp defaultGame)) := by
      unfold loadGame
      dsimp only
      rw [h]
      rfl
    unfold createSession
    dsimp only
    rw [hl]
  · intro h
    have hl : loadGame fs resolve (jsOrDefault gp defaultGame)
        = .ok (fs.readFileSync (resolve (jsOrDefault gp defaultGame)),
               resolve (jsOrDefault gp defaultGame)) := by
      unfold loadGame
      dsimp only
      rw [h]
      rfl
    unfold createSession
    dsimp only
    rw [hl]
    rfl

/-- Witness for claim C4: a missing file on an empty filesystem leaves the
registry empty, and an existing file stores the started session. -/
theorem claim_C4_witness :
    (createSession ⟨[]⟩ id "game.z5" [] "sid-1" none "t0"
      = ([], .badRequest ("Game file not found: " ++ "game.z5")))
    ∧ (createSession demoFS id "zork1.zip" [] "sid-2" none "t0"
      = (Registry.set [] "sid-2"
          { zmachine := { ZMachineAPI.init (demoFS.readFileSync "zork1.zip")
                            with gameStarted := true }
            gamePath := "zork1.zip", createdAt := "t0" },
         .ok "sid-2" welcomeMessage "zork1.zip")) :=
  ⟨(claim_C4 ⟨[]⟩ id "game.z5" [] "sid-1" none "t0").1 rfl,
   (claim_C4 demoFS id "zork1.zip" [] "sid-2" none "t0").2 rfl⟩

/-! ## Claim C6 -/

/-- Claim C6: deleting an existing session succeeds exactly once — the
handler reports success and removes the map entry, a second delete of the
same id answers 404, and a delete of a never-created id answers 404 leaving
the registry untouched. -/
theorem claim_C6 (reg : Registry) (sid : String) :
    ((reg.lookup sid).isSome = true →
      (deleteSessionHandler reg sid).2 = .ok true "Session deleted"
      ∧ ((deleteSessionHandler reg sid).1.lookup sid) = none
      ∧ (deleteSessionHandler (deleteSessionHandler reg sid).1 sid).2
          = .notFound "Session not found")
    ∧ ((reg.lookup sid).isSome = false →
      deleteSessionHandler reg sid = (reg, .notFound "Session not found")) := by
  constructor
  · intro h
    have h1 : deleteSessionHandler reg sid
        = (Registry.eraseKey reg sid, .ok true "Session deleted") := by
      unfold deleteSessionHandler
      rw [if_pos h]
    have h2 : (Registry.eraseKey reg sid).lookup sid = none := lookup_eraseKey reg sid
    refine ⟨by rw [h1], by rw [h1]; exact h2, ?_⟩
    rw [h1]
    show (deleteSessionHandler (Registry.eraseKey reg sid) sid).2 = _
    unfold deleteSessionHandler
    rw [if_neg (by simp [h2])]
  · intro h
    unfold deleteSessionHandler
    rw [if_neg (by simp [h])]

/-- Witness for claim C6 at a one-entry registry and at the empty
registry. -/
theorem claim_C6_witness :
    ((deleteSessionHandler [("s", demoEntry)] "s").2 = .ok true "Session deleted"
      ∧ (((deleteSessionHandler [("s", demoEntry)] "s").1).lookup "s") = none
      ∧ (deleteSessionHandler (deleteSessionHandler [("s", demoEntry)] "s").1 "s").2
          = .notFound "Session not found")
    ∧ deleteSessionHandler [] "s" = ([], .notFound "Session not found") :=
  ⟨(claim_C6 [("s", demoEntry)] "s").1 (by decide),
   (claim_C6 [] "s").2 (by decide)⟩

/-! ## Claim C5 -/

/-- Claim C5 as stated is false for the stub variant: calling
`ZMachineAPI.input` on a fresh adapter, before any `start`, does not fail
with a state error — it returns the normal welcome transcript (exactly what
`start` would return) and marks the game started. -/
theorem claim_C5_counterexample :
    (ZMachineAPI.init "story").gameStarted = false
    ∧ ((ZMachineAPI.init "story").input "look").1 = welcomeMessage
    ∧ ((ZMachineAPI.init "story").input "look").2.gameStarted = true := by
  decide

/-- Claim C5 (amended): only the subprocess variant enforces the
requirement of a prior successful start.  `DFrotzSession.sendCommand` fails
with the state error "Process not running" when no process was ever started
(`proc` is null), when the process was killed, and after `cleanup` disposed
the adapter; the stub variant instead treats the first `input` as an
implicit start and returns the welcome transcript as a normal result. -/
theorem claim_C5 (s : DFrotzSession) (cmd collected story : String) :
    (s.proc = none → s.sendCommand cmd collected = .error "Process not running")
    ∧ (∀ p : DFrotzProc, s.proc = some p → p.killed = true →
        s.sendCommand cmd collected = .error "Process not running")
    ∧ (s.cleanup).sendCommand cmd collected = .error "Process not running"
    ∧ (DFrotzSession.mkNew story).sendCommand cmd collected = .error "Process not running"
    ∧ ((ZMachineAPI.init story).input cmd).1 = welcomeMessage := by
  refine ⟨?_, ?_, rfl, rfl, rfl⟩
  · intro h
    unfold DFrotzSession.sendCommand
    rw [h]
  · intro p hp hk
    unfold DFrotzSession.sendCommand
    rw [hp]
    dsimp only
    rw [if_pos hk]

/-- Witness for claim C5 at a never-started subprocess adapter. -/
theorem claim_C5_witness :
    (DFrotzSession.mkNew "g").sendCommand "look" "out" = .error "Process not running"
    ∧ ((ZMachineAPI.init "story").input "look").1 = welcomeMessage :=
  ⟨(claim_C5 (DFrotzSession.mkNew "g") "look" "out" "story").1 rfl,
   (claim_C5 (DFrotzSession.mkNew "g") "look" "out" "story").2.2.2.2⟩

/-! ## Claim C7 -/

theorem dropWhile_head_not (q : Char → Bool) :
    ∀ (l : List Char) (c : Char) (rest : List Char),
      l.dropWhile q = c :: rest → q c = false := by
  intro l
  induction l with
  | nil =>
    intro c rest h
    simp [List.dropWhile] at h
  | cons a t ih =>
    intro c rest h
    by_cases ha : q a
    · rw [List.dropWhile_cons_of_pos ha] at h
      exact ih c rest h
    · rw [List.dropWhile_cons_of_neg ha] at h
      cases h
      simpa using ha

/-- Claim C7: on a live subprocess, `sendCommand` appends exactly the
command followed by a single newline to the process's input stream, and
stores and returns the collected output stripped of everything up to and
including its first newline: when the collected output contains a newline it
decomposes as a newline-free first line, the newline, then the returned
transcript; when it contains none it is returned unchanged. -/
theorem claim_C7 (s : DFrotzSession) (p : DFrotzProc) (cmd collected : String)
    (hp : s.proc = some p) (hk : p.killed = false) :
    ∃ out s1,
      s.sendCommand cmd collected = .ok (out, s1)
      ∧ s1.proc = some { p with stdinData := p.stdinData ++ (cmd ++ "\n") }
      ∧ s1.outputBuffer = out
      ∧ ((¬ ('\n' ∈ collected.data) ∧ out = collected)
        ∨ ∃ pre : List Char, (∀ c ∈ pre, c ≠ '\n')
            ∧ collected.data = pre ++ '\n' :: out.data) := by
  have hsend : s.sendCommand cmd collected
      = .ok (stripFirstLine collected,
          { s with proc := some { p with stdinData := p.stdinData ++ (cmd ++ "\n") },
                   outputBuffer := stripFirstLine collected }) := by
    unfold DFrotzSession.sendCommand
    rw [hp]
    dsimp only
    rw [if_neg (by simp [hk])]
  refine ⟨stripFirstLine collected, _, hsend, rfl, rfl, ?_⟩
  unfold stripFirstLine
  cases hd : collected.data.dropWhile (fun c => !(c == '\n')) with
  | nil =>
    left
    refine ⟨?_, rfl⟩
    intro hmem
    have hall := List.dropWhile_eq_nil_iff.mp hd
    have := hall '\n' hmem
    simp at this
  | cons c rest =>
    right
    refine ⟨collected.data.takeWhile (fun c => !(c == '\n')), ?_, ?_⟩
    · intro x hx
      have hq := List.mem_takeWhile_imp hx
      simpa using hq
    · have hsplit := List.takeWhile_append_dropWhile (fun c => !(c == '\n')) collected.data
      rw [hd] at hsplit
      have hc : c = '\n' := by
        have h2 := dropWhile_head_not (fun c => !(c == '\n')) collected.data c rest hd
        simpa using h2
      dsimp only
      rw [hc] at hsplit
      exact hsplit.symm

/-- Witness for claim C7 at a live process, command "look" and collected
output whose echo line is "look" and whose body is "West of House". -/
theorem claim_C7_witness :
    ∃ out s1,
      DFrotzSession.sendCommand
          { gamePath := "g", proc := some { killed := false, stdinData := "" }
            outputBuffer := "", ready := true } "look" "look\nWest of House"
        = .ok (out, s1)
      ∧ s1.proc = some { killed := false, stdinData := "" ++ ("look" ++ "\n") }
      ∧ s1.outputBuffer = out
      ∧ ((¬ ('\n' ∈ ("look\nWest of House" : String).data)
            ∧ out = "look\nWest of House")
        ∨ ∃ pre : List Char, (∀ c ∈ pre, c ≠ '\n')
            ∧ ("look\nWest of House" : String).data = pre ++ '\n' :: out.data) :=
  claim_C7
    { gamePath := "g", proc := some { killed := false, stdinData := "" }
      outputBuffer := "", ready := true }
    { killed := false, stdinData := "" } "look" "look\nWest of House" rfl rfl

/-! ## Claim C8 -/

/-- Claim C8: the game catalog lists exactly the directory entries whose
name ends in one of .z1 through .z8 or .zip, each as a record pairing the
file name with the path "/games/" followed by the name; no other entry
appears. -/
theorem claim_C8 (files : List String) :
    (∀ f ∈ files, (GameEntry.mk f ("/games/" ++ f) ∈ listGames files ↔ hasGameExt f = true))
    ∧ (∀ e ∈ listGames files, e.name ∈ files ∧ hasGameExt e.name = true
        ∧ e.path = "/games/" ++ e.name) := by
  constructor
  · intro f hf
    constructor
    · intro hmem
      unfold listGames at hmem
      obtain ⟨g, hg, hge⟩ := List.mem_map.mp hmem
      obtain ⟨hgf, _⟩ := GameEntry.mk.injEq .. ▸ hge
      obtain ⟨_, hgx⟩ := List.mem_filter.mp hg
      rw [← hgf]
      exact hgx
    · intro hx
      unfold listGames
      exact List.mem_map.mpr ⟨f, List.mem_filter.mpr ⟨hf, hx⟩, rfl⟩
  · intro e he
    unfold listGames at he
    obtain ⟨g, hg, hge⟩ := List.mem_map.mp he
    obtain ⟨hgf, hgx⟩ := List.mem_filter.mp hg
    subst hge
    exact ⟨hgf, hgx, rfl⟩

/-- Witness for claim C8 at a directory holding one story file and one
non-game file. -/
theorem claim_C8_witness :
    GameEntry.mk "zork1.z5" "/games/zork1.z5" ∈ listGames ["zork1.z5", "notes.txt"]
    ∧ ¬ GameEntry.mk "notes.txt" "/games/notes.txt" ∈ listGames ["zork1.z5", "notes.txt"] := by
  constructor
  · exact ((claim_C8 ["zork1.z5", "notes.txt"]).1 "zork1.z5" (by simp)).mpr (by decide)
  · intro hmem
    have hx := ((claim_C8 ["zork1.z5", "notes.txt"]).1 "notes.txt" (by simp)).mp hmem
    exact absurd hx (by decide)

/-! ## Claim C9

The stub dispatcher begins with `cmd.toLowerCase().trim().split(/\s+/)`, so
its behaviour is invariant under letter case and under the run length of
whitespace.  `CmdEdit` captures one such edit; `claim_C9` proves invariance
under any chain of edits. -/

/-- One case-or-whitespace edit of a command string: changing letter case
anywhere, adding one leading or one trailing whitespace character, or
lengthening a whitespace run by one character. -/
inductive CmdEdit : String → String → Prop where
  | caseChange (c1 c2 : String)
      (h : c1.data.map Char.toLower = c2.data.map Char.toLower) : CmdEdit c1 c2
  | addLead (w : Char) (c : String) (h : isWs w = true) :
      CmdEdit (String.mk (w :: c.data)) c
  | addTrail (w : Char) (c : String) (h : isWs w = true) :
      CmdEdit (String.mk (c.data ++ [w])) c
  | dupInner (a b : String) (w v : Char) (hw : isWs w = true) (hv : isWs v = true) :
      CmdEdit (String.mk (a.data ++ w :: v :: b.data)) (String.mk (a.data ++ w :: b.data))

theorem ws_toLower (w : Char) (h : isWs w = true) : Char.toLower w = w := by
  have h4 : ((w = ' ' ∨ w = '\t') ∨ w = '\n') ∨ w = '\r' := by
    simpa [isWs] using h
  rcases h4 with ((h1 | h1) | h1) | h1 <;> subst h1 <;> decide

theorem splitRuns_ws_cons (c : Char) (hc : isWs c = true) (t : List Char) :
    splitRuns (c :: t) = splitRuns t := by
  unfold splitRuns
  simp [splitRunsAux, hc]

theorem splitRunsAux_allws : ∀ (w : List Char), (∀ c ∈ w, isWs c = true) → ∀ acc,
    splitRunsAux w acc = if acc = [] then [] else [acc.reverse] := by
  intro w
  induction w with
  | nil =>
    intro _ acc
    rfl
  | cons c t ih =>
    intro hall acc
    have hc : isWs c = true := hall c (List.mem_cons_self c t)
    have ht : ∀ x ∈ t, isWs x = true := fun x hx => hall x (List.mem_cons_of_mem c hx)
    have ht0 : splitRunsAux t [] = [] := by simpa using ih ht []
    by_cases ha : acc = []
    · simp [splitRunsAux, hc, ha, ht0]
    · simp [splitRunsAux, hc, ha, ht0]

theorem splitRunsAux_append_allws : ∀ (m w : List Char), (∀ c ∈ w, isWs c = true) →
    ∀ acc, splitRunsAux (m ++ w) acc = splitRunsAux m acc := by
  intro m
  induction m with
  | nil =>
    intro w hall acc
    rw [List.nil_append]
    rw [splitRunsAux_allws w hall acc]
    rfl
  | cons c t ih =>
    intro w hall acc
    rw [List.cons_append]
    by_cases hc : isWs c = true
    · simp [splitRunsAux, hc, ih w hall]
    · simp [splitRunsAux, hc, ih w hall]

theorem splitRunsAux_dup : ∀ (x : List Char) (w v : Char), isWs w = true → isWs v = true →
    ∀ (y : List Char) (acc : List Char),
      splitRunsAux (x ++ w :: v :: y) acc = splitRunsAux (x ++ w :: y) acc := by
  intro x
  induction x with
  | nil =>
    intro w v hw hv y acc
    simp only [List.nil_append]
    simp [splitRunsAux, hw, hv]
  | cons c t ih =>
    intro w v hw hv y acc
    simp only [List.cons_append]
    by_cases hc : isWs c = true
    · simp [splitRunsAux, hc, ih w v hw hv y]
    · simp [splitRunsAux, hc, ih w v hw hv y]

theorem splitRuns_ltrim (cs : List Char) : splitRuns (ltrim cs) = splitRuns cs := by
  unfold ltrim
  induction cs with
  | nil => rfl
  | cons c t ih =>
    by_cases hc : isWs c = true
    · rw [List.dropWhile_cons_of_pos hc]
      rw [ih]
      exact (splitRuns_ws_cons c hc t).symm
    · rw [List.dropWhile_cons_of_neg hc]

theorem rtrim_decomp (cs : List Char) :
    ∃ w, (∀ c ∈ w, isWs c = true) ∧ cs = rtrim cs ++ w := by
  refine ⟨(cs.reverse.takeWhile isWs).reverse, ?_, ?_⟩
  · intro c hc
    exact List.mem_takeWhile_imp (List.mem_reverse.mp hc)
  · have h := List.takeWhile_append_dropWhile isWs cs.reverse
    calc cs = cs.reverse.reverse := (List.reverse_reverse cs).symm
      _ = (cs.reverse.takeWhile isWs ++ cs.reverse.dropWhile isWs).reverse := by rw [h]
      _ = (cs.reverse.dropWhile isWs).reverse ++ (cs.reverse.takeWhile isWs).reverse := by
          rw [List.reverse_append]

theorem splitRuns_rtrim (cs : List Char) : splitRuns (rtrim cs) = splitRuns cs := by
  obtain ⟨w, hall, hdecomp⟩ := rtrim_decomp cs
  conv_rhs => rw [hdecomp]
  exact (splitRunsAux_append_allws (rtrim cs) w hall []).symm

theorem splitRuns_jsTrim (cs : List Char) : splitRuns (jsTrim cs) = splitRuns cs := by
  unfold jsTrim
  rw [splitRuns_rtrim, splitRuns_ltrim]

theorem mem_dropWhile_imp_mem : ∀ (l : List Char) (c : Char),
    c ∈ l.dropWhile isWs → c ∈ l := by
  intro l
  induction l with
  | nil =>
    intro c hc
    exact hc
  | cons a t ih =>
    intro c hc
    by_cases ha : isWs a = true
    · rw [List.dropWhile_cons_of_pos ha] at hc
      exact List.mem_cons_of_mem a (ih c hc)
    · rw [List.dropWhile_cons_of_neg ha] at hc
      exact hc

theorem rtrim_eq_nil_iff (z : List Char) :
    rtrim z = [] ↔ ∀ c ∈ z, isWs c = true := by
  unfold rtrim
  constructor
  · intro h c hc
    have h2 : z.reverse.dropWhile isWs = [] := by
      have := congrArg List.reverse h
      simpa using this
    exact List.dropWhile_eq_nil_iff.mp h2 c (List.mem_reverse.mpr hc)
  · intro hall
    have h2 : z.reverse.dropWhile isWs = [] :=
      List.dropWhile_eq_nil_iff.mpr fun c hc => hall c (List.mem_reverse.mp hc)
    rw [h2]
    rfl

theorem jsTrim_eq_nil_iff (cs : List Char) :
    jsTrim cs = [] ↔ ∀ c ∈ cs, isWs c = true := by
  unfold jsTrim
  rw [rtrim_eq_nil_iff]
  constructor
  · intro hall c hc
    have hsplit := List.takeWhile_append_dropWhile isWs cs
    rw [← hsplit] at hc
    rcases List.mem_append.mp hc with h1 | h1
    · exact List.mem_takeWhile_imp h1
    · exact hall c h1
  · intro hall c hc
    exact hall c (mem_dropWhile_imp_mem cs c hc)

theorem splitRunsAux_ne_nil : ∀ (l acc : List Char), acc ≠ [] → splitRunsAux l acc ≠ [] := by
  intro l
  induction l with
  | nil =>
    intro acc h
    simp [splitRunsAux, h]
  | cons c t ih =>
    intro acc h
    by_cases hc : isWs c = true
    · simp [splitRunsAux, hc, h]
    · simp only [splitRunsAux, hc]
      simpa [hc] using ih (c :: acc) (by simp)

theorem splitRuns_eq_nil_iff (cs : List Char) :
    splitRuns cs = [] ↔ ∀ c ∈ cs, isWs c = true := by
  induction cs with
  | nil => simp [splitRuns, splitRunsAux]
  | cons c t ih =>
    by_cases hc : isWs c = true
    · rw [splitRuns_ws_cons c hc t, ih]
      constructor
      · intro hall x hx
        rcases List.mem_cons.mp hx with h1 | h1
        · rw [h1]; exact hc
        · exact hall x h1
      · intro hall x hx
        exact hall x (List.mem_cons_of_mem c hx)
    · constructor
      · intro hcontra
        exfalso
        have hne : splitRuns (c :: t) ≠ [] := by
          unfold splitRuns
          simp only [splitRunsAux, hc]
          simpa [hc] using splitRunsAux_ne_nil t [c] (by simp)
        exact hne hcontra
      · intro hall
        exact absurd (hall c (List.mem_cons_self c t)) hc

theorem jsTrim_nil_iff_splitRuns (cs : List Char) :
    jsTrim cs = [] ↔ splitRuns cs = [] := by
  rw [jsTrim_eq_nil_iff, splitRuns_eq_nil_iff]

theorem jsWords_congr (c1 c2 : String)
    (h : splitRuns (jsToLower c1.data) = splitRuns (jsToLower c2.data)) :
    jsWords c1 = jsWords c2 := by
  have h1 : (jsTrim (jsToLower c1.data) = []) ↔ (jsTrim (jsToLower c2.data) = []) := by
    rw [jsTrim_nil_iff_splitRuns, jsTrim_nil_iff_splitRuns, h]
  unfold jsWords
  dsimp only
  rw [splitRuns_jsTrim (jsToLower c1.data), splitRuns_jsTrim (jsToLower c2.data), h]
  exact if_congr h1 rfl rfl

theorem CmdEdit_splitRuns (c1 c2 : String) (h : CmdEdit c1 c2) :
    splitRuns (jsToLower c1.data) = splitRuns (jsToLower c2.data) := by
  cases h with
  | caseChange c1 c2 hc =>
    unfold jsToLower
    rw [hc]
  | addLead w c hw =>
    unfold jsToLower
    dsimp only
    rw [List.map_cons, ws_toLower w hw]
    exact splitRuns_ws_cons w hw _
  | addTrail w c hw =>
    unfold jsToLower
    dsimp only
    rw [List.map_append]
    rw [show List.map Char.toLower [w] = [w] from by simp [ws_toLower w hw]]
    exact splitRunsAux_append_allws _ [w]
      (by intro x hx; rw [List.mem_singleton.mp hx]; exact hw) []
  | dupInner a b w v hw hv =>
    unfold jsToLower
    dsimp only
    rw [List.map_append, List.map_cons, List.map_cons, List.map_append, List.map_cons]
    rw [ws_toLower w hw, ws_toLower v hv]
    exact splitRunsAux_dup (List.map Char.toLower a.data) w v hw hv
      (List.map Char.toLower b.data) []

/-- Claim C9: the stub dispatcher is invariant under letter case and
whitespace run length — for any two command strings related by a chain of
case changes, added or removed leading or trailing whitespace, or lengthened
or shortened whitespace runs, `processCommand` returns the same transcript
and the same resulting world state. -/
theorem claim_C9 (st : ZMachineAPI) (c1 c2 : String)
    (h : Relation.EqvGen CmdEdit c1 c2) :
    st.processCommand c1 = st.processCommand c2 := by
  induction h with
  | rel x y hxy =>
    have hw : jsWords x = jsWords y := jsWords_congr x y (CmdEdit_splitRuns x y hxy)
    unfold ZMachineAPI.processCommand
    rw [hw]
  | refl x => rfl
  | symm x y _ ih => exact ih.symm
  | trans x y z _ _ ih1 ih2 => exact ih1.trans ih2

/-- Witness for claim C9: "LOOK" behaves like "look" (case change), and
" look" behaves like "look" (leading whitespace). -/
theorem claim_C9_witness :
    (ZMachineAPI.init "").processCommand "LOOK" = (ZMachineAPI.init "").processCommand "look"
    ∧ (ZMachineAPI.init "").processCommand " look"
        = (ZMachineAPI.init "").processCommand "look" :=
  ⟨claim_C9 (ZMachineAPI.init "") "LOOK" "look"
      (Relation.EqvGen.rel _ _ (CmdEdit.caseChange "LOOK" "look" (by decide))),
   claim_C9 (ZMachineAPI.init "") " look" "look"
      (Relation.EqvGen.rel _ _ (CmdEdit.addLead ' ' "look" (by decide)))⟩

/-! ## Claim C10 -/

/-- Claim C10: the read-only commands — look, inventory, examine with any
noun, score, wait, help — leave the stub world state (location, inventory,
mailbox flag) unchanged; only the returned transcript reads it. -/
theorem claim_C10 (st : ZMachineAPI) (c : String) (verb : String) (rest : List String)
    (hw : jsWords c = verb :: rest)
    (hv : verb = "look" ∨ verb = "inventory" ∨ verb = "examine" ∨ verb = "score"
          ∨ verb = "wait" ∨ verb = "help") :
    (st.processCommand c).2.location = st.location
    ∧ (st.processCommand c).2.inventory = st.inventory
    ∧ (st.processCommand c).2.openedMailbox = st.openedMailbox := by
  rcases hv with hv | hv | hv | hv | hv | hv <;> subst hv
  · have hred : st.processCommand c = st.doLook := by
      unfold ZMachineAPI.processCommand
      rw [hw]
      rfl
    rw [hred]
    unfold ZMachineAPI.doLook
    split_ifs <;> exact ⟨rfl, rfl, rfl⟩
  · have hred : st.processCommand c = st.doInventory := by
      unfold ZMachineAPI.processCommand
      rw [hw]
      rfl
    rw [hred]
    unfold ZMachineAPI.doInventory
    split_ifs <;> exact ⟨rfl, rfl, rfl⟩
  · have hred : st.processCommand c = st.doExamine (String.intercalate " " rest) := by
      unfold ZMachineAPI.processCommand
      rw [hw]
      rfl
    rw [hred]
    unfold ZMachineAPI.doExamine
    split_ifs <;> exact ⟨rfl, rfl, rfl⟩
  · have hred : st.processCommand c = st.doScore := by
      unfold ZMachineAPI.processCommand
      rw [hw]
      rfl
    rw [hred]
    exact ⟨rfl, rfl, rfl⟩
  · have hred : st.processCommand c = st.doWait := by
      unfold ZMachineAPI.processCommand
      rw [hw]
      rfl
    rw [hred]
    exact ⟨rfl, rfl, rfl⟩
  · have hred : st.processCommand c = st.doHelp := by
      unfold ZMachineAPI.processCommand
      rw [hw]
      rfl
    rw [hred]
    exact ⟨rfl, rfl, rfl⟩

/-- Witness for claim C10 at the fresh state and the command
"examine mailbox". -/
theorem claim_C10_witness :
    ((ZMachineAPI.init "").processCommand "examine mailbox").2.location
        = (ZMachineAPI.init "").location
    ∧ ((ZMachineAPI.init "").processCommand "examine mailbox").2.inventory
        = (ZMachineAPI.init "").inventory
    ∧ ((ZMachineAPI.init "").processCommand "examine mailbox").2.openedMailbox
        = (ZMachineAPI.init "").openedMailbox :=
  claim_C10 (ZMachineAPI.init "") "examine mailbox" "examine" ["mailbox"] (by decide)
    (Or.inr (Or.inr (Or.inl rfl)))

end ZM
